import Mathlib

/-!
Shallow embedding of `update_index.py` (the CSV classifier/extractor feeding the
HTML dashboard generator).  The embedding covers `parse_csv` and the helpers it
uses: rows are `List String` (cells as produced by the csv reader), Python dicts
are insertion-ordered association lists with replace-on-rekey semantics, and
Python `float` values are modelled as rationals.  All definitions are translated
from the source; the one spec-side definition (`specHeaderSig`) is clearly
marked as such and is only used to compare the spec's wording with the code.
-/

namespace UpdateIndex

/-- ASCII whitespace characters recognised by Python's `str.strip` and by the
`\s` class of the `re` module (the source only ever strips cells read from a
CSV file, so the ASCII subset is the relevant one). -/
def isPySpace (c : Char) : Bool :=
  c == ' ' || c == '\t' || c == '\n' || c == '\r' || c == '\x0b' || c == '\x0c'

/-- Python `str.strip()`: remove leading and trailing whitespace. -/
def strip (s : String) : String :=
  String.mk (((s.toList.dropWhile isPySpace).reverse.dropWhile isPySpace).reverse)

/-- Python `s.replace(',', '.')` (single-character replacement). -/
def replaceCommaDot (s : String) : String :=
  String.mk (s.toList.map (fun c => if c == ',' then '.' else c))

/-- Python `c in s` for a single character `c`. -/
def charIn (s : String) (c : Char) : Bool :=
  s.toList.contains c

/-- Auxiliary for substring containment: does `sub` occur as a prefix of `s`? -/
def beginsWith : List Char → List Char → Bool
  | [], _ => true
  | _ :: _, [] => false
  | a :: as, b :: bs => a == b && beginsWith as bs

/-- Auxiliary for substring containment: does `sub` occur anywhere in `s`? -/
def containsSubAux (sub : List Char) : List Char → Bool
  | [] => sub.isEmpty
  | c :: rest => beginsWith sub (c :: rest) || containsSubAux sub rest

/-- Python `sub in s` substring containment. -/
def containsSub (s sub : String) : Bool :=
  containsSubAux sub.toList s.toList

/-- Numeric value of a list of decimal digit characters (most significant first). -/
def digitsVal (ds : List Char) : Nat :=
  ds.foldl (fun n c => n * 10 + (c.toNat - 48)) 0

/-- Python `float(s)` on plain decimal notation (optional sign, digits, optional
decimal point), returning `none` where `float` raises `ValueError`.  The source
only ever feeds this spreadsheet cells holding plain decimals; exotic `float`
inputs (exponents, `inf`, `nan`) are outside the modelled fragment. -/
def parseDecimal (s : String) : Option ℚ :=
  let cs := s.toList
  let signedTail : ℚ × List Char :=
    match cs with
    | '-' :: r => (-1, r)
    | '+' :: r => (1, r)
    | r => (1, r)
  let sgn := signedTail.1
  let rest := signedTail.2
  let intPart := rest.takeWhile Char.isDigit
  let rest2 := rest.drop intPart.length
  match rest2 with
  | [] =>
      if intPart.isEmpty then none
      else some (sgn * (digitsVal intPart : ℚ))
  | '.' :: frac =>
      if frac.all Char.isDigit && !(intPart.isEmpty && frac.isEmpty) then
        some (sgn * ((digitsVal intPart : ℚ) + (digitsVal frac : ℚ) / (10 : ℚ) ^ frac.length))
      else none
  | _ => none

/-- Tail of the cost-range pattern: `\d+\s*000$` (at least one digit, optional
whitespace, then the literal `000`), with the regex's backtracking resolved into
a deterministic check. -/
def tcoTail (r : List Char) : Bool :=
  let d2 := r.takeWhile Char.isDigit
  if d2.isEmpty then false
  else
    let rest := r.drop d2.length
    if rest.isEmpty then
      decide (4 ≤ d2.length) && (d2.reverse.take 3 == ['0', '0', '0'])
    else
      rest.dropWhile isPySpace == ['0', '0', '0']

/-- Python `re.match(r'^\d+\s*-\s*\d+\s*000$', s)` as a full-string Boolean
test (the pattern is anchored at both ends, and inputs are pre-stripped). -/
def tcoMatch (s : String) : Bool :=
  let cs := s.toList
  let d1 := cs.takeWhile Char.isDigit
  if d1.isEmpty then false
  else
    match (cs.drop d1.length).dropWhile isPySpace with
    | '-' :: r2 => tcoTail (r2.dropWhile isPySpace)
    | _ => false

/-- `Criterion` dataclass: one evaluation criterion; `scores` models the
Python dict keyed by provider name. -/
structure Criterion where
  priority : String
  weight : ℚ
  name : String
  description : String
  scores : List (String × ℚ)
deriving DecidableEq, Repr

/-- `Category` dataclass: a category of criteria with provider subtotals. -/
structure Category where
  name : String
  weight_percent : ℚ
  criteria : List Criterion
  subtotals : List (String × String)
deriving DecidableEq, Repr

/-- The fixed ordered provider list `PROVIDERS`. -/
def PROVIDERS : List String :=
  ["Google Cloud CCAI", "Ender Turing", "NICE", "Microsoft Copilot",
   "Genesys Cloud CX", "NICE Cognigy", "Live Person", "Ringo stat",
   "Deca gon", "Eleven Labs", "Poly AI", "Get Vocal"]

/-- `CATEGORY_MAP`: label cell text to (category id, display name, weight). -/
def CATEGORY_MAP : List (String × String × String × ℚ) :=
  [("COPILOT", ("copilot", "Copilot", 15)),
   ("ПОСТОБРОБКА (ACW)", ("acw", "Постобробка", 25)),
   ("АНАЛІТИКА ТА QA", ("analytics", "Аналітика & QA", 15)),
   ("PRE-CALL AI, як повноцінний IVR-замінник", ("precall", "PreCall AI", 5)),
   ("IT, ENTERPRISE & SECURITY", ("it", "IT & Security", 30)),
   ("БІЗНЕС ТА ВПРОВАДЖЕННЯ", ("business", "Бізнес", 10))]

/-- Python dict assignment `d[k] = v` on an insertion-ordered association list:
replace the value at an existing key in place, otherwise append the pair. -/
def setd (k : String) (v : α) : List (String × α) → List (String × α)
  | [] => [(k, v)]
  | (k', v') :: rest => if k' == k then (k, v) :: rest else (k', v') :: setd k v rest

/-- Mutate the value stored at key `k` in place (models Python object mutation
through an alias that is also stored in the dict). -/
def updateVal (k : String) (f : α → α) : List (String × α) → List (String × α)
  | [] => []
  | (k', v) :: rest => if k' == k then (k', f v) :: rest else (k', v) :: updateVal k f rest

/-- `truncate_text`: truncate display text to `max_len` characters. -/
def truncate_text (text : String) (max_len : Nat) : String :=
  if max_len < text.length then text.take max_len ++ "..." else text

/-- One step of the provider loops `for j, provider in enumerate(PROVIDERS)`:
`upd j = some v` stores `v` under the `j`-th provider, `none` leaves the dict
untouched for that provider. -/
def pfoldAux (upd : Nat → Option α) : Nat → List String → List (String × α) → List (String × α)
  | _, [], m => m
  | j, p :: ps, m =>
      pfoldAux upd (j + 1) ps
        (match upd j with
         | some v => setd p v m
         | none => m)

/-- The provider loop over the full `PROVIDERS` list starting at index 0. -/
def pfold (upd : Nat → Option α) (m : List (String × α)) : List (String × α) :=
  pfoldAux upd 0 PROVIDERS m

/-- Cell captured by the final-score and subtotal loops: the stripped cell at
column `j + 4` when the row is long enough, nothing otherwise. -/
def cellUpd (row : List String) (j : Nat) : Option String :=
  if j + 4 < row.length then some (strip (row.getD (j + 4) "")) else none

/-- Cell captured by the TCO loop: the stripped cell at column `j + 4`, kept
only when it is nonempty and matches the numeric-range pattern. -/
def tcoUpd (row : List String) (j : Nat) : Option String :=
  if j + 4 < row.length then
    let val := strip (row.getD (j + 4) "")
    if !(val == "") && tcoMatch val then some val else none
  else none

/-- Score captured by the criterion loop: parse the stripped cell at column
`j + 4` with commas accepted as decimal points, defaulting to 0 on parse
failure; nothing when the row is too short. -/
def scoreUpd (row : List String) (j : Nat) : Option ℚ :=
  if j + 4 < row.length then
    some ((parseDecimal (replaceCommaDot (strip (row.getD (j + 4) "")))).getD 0)
  else none

/-- The has-TCO scan over `row[4:16]`: some cell, once stripped, is nonempty
and matches the numeric-range pattern. -/
def hasTco (row : List String) : Bool :=
  ((row.drop 4).take 12).any (fun cell => let c := strip cell; !(c == "") && tcoMatch c)

/-- Category-header condition: the stripped first cell is a key of `CATEGORY_MAP`. -/
def catCond (row : List String) : Bool :=
  (CATEGORY_MAP.lookup (strip (row.getD 0 ""))).isSome

/-- Final-score condition: the stripped weight cell (column 2) is `"100%"` and
the stripped description cell (column 3) contains the marker substring. -/
def finalCond (row : List String) : Bool :=
  strip (row.getD 2 "") == "100%" && containsSub (strip (row.getD 3 "")) "Загальна оцінка"

/-- TCO condition: the row has more than 4 cells and some score cell matches
the numeric-range pattern. -/
def tcoCond (row : List String) : Bool :=
  decide (4 < row.length) && hasTco row

/-- Subtotal condition: the stripped weight cell is nonempty and carries a
percent sign while the stripped priority cell is empty. -/
def subCond (row : List String) : Bool :=
  let w := strip (row.getD 2 "")
  !(w == "") && charIn w '%' && (strip (row.getD 0 "") == "")

/-- Criterion condition: the stripped priority cell is one of the three
priority literals (`mscw in ['Must', 'Should', 'Could']`). -/
def critCond (row : List String) : Bool :=
  strip (row.getD 0 "") == "Must" || strip (row.getD 0 "") == "Should" ||
    strip (row.getD 0 "") == "Could"

/-- The mutually exclusive record kinds a row can be classified as. -/
inductive RowClass where
  | skip
  | category
  | finalScore
  | tco
  | subtotal
  | criterion
  | other
deriving DecidableEq, Repr

/-- Row classification: the chain of checks of the per-row loop body, applied
in source order with first-match precedence (rows shorter than 4 cells are
skipped before any other check). -/
def classifyRow (row : List String) : RowClass :=
  if row.length < 4 then .skip
  else if catCond row then .category
  else if finalCond row then .finalScore
  else if tcoCond row then .tco
  else if subCond row then .subtotal
  else if critCond row then .criterion
  else .other

/-- The criterion built from a criterion row (weight parse failure or an empty
weight cell degrades to 0; an empty name cell falls back to the truncated
description; scores collected by the provider loop). -/
def mkCriterion (row : List String) : Criterion :=
  let mscw := strip (row.getD 0 "")
  let criterion_name := strip (row.getD 1 "")
  let weight_str := strip (row.getD 2 "")
  let description := strip (row.getD 3 "")
  { priority := mscw
    weight :=
      if weight_str == "" then 0
      else (parseDecimal (replaceCommaDot weight_str)).getD 0
    name := if !(criterion_name == "") then criterion_name else truncate_text description 40
    description := description
    scores := pfold (scoreUpd row) [] }

/-- The accumulator of the extraction pass: the three result dicts plus the
identity of the currently open category.  In the source `current_category`
aliases the `Category` object stored in `categories`; since the dict entry for
a key is only ever replaced at the moment `current_category` is also rebound to
the new object, tracking the current category by its id is a faithful model. -/
structure ParseState where
  categories : List (String × Category)
  final_scores : List (String × String)
  tco_values : List (String × String)
  current : Option String
deriving DecidableEq, Repr

/-- The empty accumulator the pass starts from. -/
def initState : ParseState := ⟨[], [], [], none⟩

/-- The body of the per-row loop of `parse_csv`, dispatching on the row's
classification. -/
def processRow (st : ParseState) (row : List String) : ParseState :=
  match classifyRow row with
  | .skip => st
  | .category =>
      match CATEGORY_MAP.lookup (strip (row.getD 0 "")) with
      | some (cat_id, cat_name, cat_weight) =>
          { st with
            categories := setd cat_id ⟨cat_name, cat_weight, [], []⟩ st.categories
            current := some cat_id }
      | none => st
  | .finalScore => { st with final_scores := pfold (cellUpd row) st.final_scores }
  | .tco => { st with tco_values := pfold (tcoUpd row) st.tco_values }
  | .subtotal =>
      match st.current with
      | some k =>
          { st with
            categories :=
              updateVal k (fun cat => { cat with subtotals := pfold (cellUpd row) cat.subtotals })
                st.categories }
      | none => st
  | .criterion =>
      match st.current with
      | some k =>
          { st with
            categories :=
              updateVal k (fun cat => { cat with criteria := cat.criteria ++ [mkCriterion row] })
                st.categories }
      | none => st
  | .other => st

/-- Header-row test: more than 3 cells with `"MSCW"` in the first column and
`"Weight %"` in the third column (raw cells, no stripping). -/
def isHeaderRow (row : List String) : Bool :=
  decide (3 < row.length) && row.getD 0 "" == "MSCW" && row.getD 2 "" == "Weight %"

/-- The header scan: index of the first row satisfying `isHeaderRow`. -/
def findHeaderIdx : List (List String) → Option Nat
  | [] => none
  | r :: rs => if isHeaderRow r then some 0 else (findHeaderIdx rs).map (· + 1)

/-- `parse_csv` on the in-memory row list: locate the header row (raising
`ValueError` when absent, modelled as `Except.error`), then fold the per-row
loop over all subsequent rows and return the three result structures. -/
def parse_csv (rows : List (List String)) :
    Except String (List (String × Category) × List (String × String) × List (String × String)) :=
  match findHeaderIdx rows with
  | none => .error "Could not find header row"
  | some i =>
      let st := (rows.drop (i + 1)).foldl processRow initState
      .ok (st.categories, st.final_scores, st.tco_values)

/-- Modelled from the spec: the header signature as the spec words it, namely
the sentinel texts standing in the first two columns of the row.  Only used to
compare the spec's description with the code's `isHeaderRow`. -/
def specHeaderSig (row : List String) : Bool :=
  row.getD 0 "" == "MSCW" && row.getD 1 "" == "Weight %"

/-- The whole extraction pass over the rows following the header. -/
def processRows (rows : List (List String)) : ParseState :=
  rows.foldl processRow initState

/-- The category id a row opens, if it is classified as a category header. -/
def openedCat (row : List String) : Option String :=
  if classifyRow row = RowClass.category then
    (CATEGORY_MAP.lookup (strip (row.getD 0 ""))).map (fun v => v.1)
  else none

/-- The most recently opened category after processing `rows`, starting from a
given current category. -/
def lastOpenedFrom (c : Option String) (rows : List (List String)) : Option String :=
  rows.foldl
    (fun cur row =>
      match openedCat row with
      | some k => some k
      | none => cur)
    c

/-- The most recently opened category after processing `rows` from scratch. -/
def lastOpened (rows : List (List String)) : Option String :=
  lastOpenedFrom none rows

/-- Decidable equality for `Except`, so concrete runs of `parse_csv` can be
checked by `decide`. -/
instance [DecidableEq ε] [DecidableEq α] : DecidableEq (Except ε α) := fun x y =>
  match x, y with
  | .error a, .error b =>
      match decEq a b with
      | isTrue h => isTrue (h ▸ rfl)
      | isFalse h => isFalse fun hc => h (Except.error.inj hc)
  | .error _, .ok _ => isFalse fun hc => Except.noConfusion hc
  | .ok _, .error _ => isFalse fun hc => Except.noConfusion hc
  | .ok a, .ok b =>
      match decEq a b with
      | isTrue h => isTrue (h ▸ rfl)
      | isFalse h => isFalse fun hc => h (Except.ok.inj hc)

/-! ## Basic lemmas about the header scan and the dict model -/

theorem findHeaderIdx_eq_none (rows : List (List String)) :
    findHeaderIdx rows = none ↔ ∀ r ∈ rows, isHeaderRow r = false := by
  induction rows with
  | nil => simp [findHeaderIdx]
  | cons r rs ih =>
    by_cases h : isHeaderRow r
    · simp [findHeaderIdx, h]
    · simp only [findHeaderIdx, if_neg h, Option.map_eq_none', List.mem_cons]
      constructor
      · intro hn r' hr'
        rcases hr' with rfl | hr'
        · exact Bool.eq_false_iff.mpr h
        · exact (ih.mp hn) r' hr'
      · intro hall
        exact ih.mpr fun r' hr' => hall r' (Or.inr hr')

theorem lookup_setd_self (k : String) (v : α) (m : List (String × α)) :
    List.lookup k (setd k v m) = some v := by
  induction m with
  | nil => simp [setd, List.lookup]
  | cons q rest ih =>
    obtain ⟨k', v'⟩ := q
    by_cases h : k' = k
    · simp [setd, h, List.lookup]
    · simp only [setd, beq_iff_eq, if_neg h, List.lookup]
      have : (k == k') = false := by simp [Ne.symm h]
      simp [this, ih]

theorem lookup_setd_ne (p q : String) (v : α) (m : List (String × α)) (h : p ≠ q) :
    List.lookup p (setd q v m) = List.lookup p m := by
  induction m with
  | nil =>
    have hb : (p == q) = false := by simp [h]
    simp [setd, List.lookup, hb]
  | cons e rest ih =>
    obtain ⟨k', v'⟩ := e
    by_cases hk : k' = q
    · subst hk
      simp only [setd, beq_self_eq_true, if_pos rfl, List.lookup]
      have : (p == k') = false := by simp [h]
      simp [this]
    · simp only [setd, beq_iff_eq, if_neg hk, List.lookup]
      cases hpk : (p == k') with
      | true => rfl
      | false => exact ih

theorem lookup_pfoldAux_notmem (upd : Nat → Option α) (ps : List String) :
    ∀ (n : Nat) (m : List (String × α)) (p : String), p ∉ ps →
      List.lookup p (pfoldAux upd n ps m) = List.lookup p m := by
  induction ps with
  | nil => intro n m p _; rfl
  | cons q rest ih =>
    intro n m p hp
    have hpq : p ≠ q := fun h => hp (h ▸ List.mem_cons_self q rest)
    have hrest : p ∉ rest := fun h => hp (List.mem_cons_of_mem q h)
    simp only [pfoldAux]
    cases hu : upd n with
    | some v => rw [ih _ _ _ hrest, lookup_setd_ne _ _ _ _ hpq]
    | none => exact ih _ _ _ hrest

theorem lookup_pfoldAux (upd : Nat → Option α) (ps : List String) :
    ∀ (n : Nat) (m : List (String × α)) (j : Nat) (p : String),
      ps.Nodup → ps.get? j = some p →
      List.lookup p (pfoldAux upd n ps m) =
        (upd (n + j)).elim (List.lookup p m) some := by
  induction ps with
  | nil => intro n m j p _ hj; cases j <;> simp [List.get?] at hj
  | cons q rest ih =>
    intro n m j p hnd hj
    have hq : q ∉ rest := (List.nodup_cons.mp hnd).1
    have hnd2 : rest.Nodup := (List.nodup_cons.mp hnd).2
    cases j with
    | zero =>
      have hpq : q = p := by simpa [List.get?] using hj
      subst hpq
      simp only [pfoldAux]
      cases hu : upd n with
      | some v =>
        rw [lookup_pfoldAux_notmem _ _ _ _ _ hq, lookup_setd_self]
        simp [hu]
      | none =>
        rw [lookup_pfoldAux_notmem _ _ _ _ _ hq]
        simp [hu]
    | succ j' =>
      have hj' : rest.get? j' = some p := by simpa [List.get?] using hj
      have hpm : p ∈ rest := List.get?_mem hj'
      have hpq : p ≠ q := fun h => hq (h ▸ hpm)
      have harith : n + 1 + j' = n + (j' + 1) := by omega
      simp only [pfoldAux]
      cases hu : upd n with
      | some v =>
        rw [ih _ _ _ _ hnd2 hj', harith, lookup_setd_ne _ _ _ _ hpq]
      | none =>
        rw [ih _ _ _ _ hnd2 hj', harith]

theorem providers_nodup : PROVIDERS.Nodup := by decide

theorem lookup_pfold (upd : Nat → Option α) (m : List (String × α)) (j : Nat) (p : String)
    (hj : PROVIDERS.get? j = some p) :
    List.lookup p (pfold upd m) = (upd j).elim (List.lookup p m) some := by
  have := lookup_pfoldAux upd PROVIDERS 0 m j p providers_nodup hj
  simpa [pfold] using this

/-! ## Concrete rows used by the end-to-end theorems -/

/-- A header row in the layout the code checks for: `"MSCW"` in the first
column and `"Weight %"` in the third column. -/
def hdrRow : List String := ["MSCW", "x", "Weight %", "y"]

/-- A full-width header row in the code's layout (name column at index 1,
weight sentinel at index 2, description at index 3, provider columns after). -/
def hdrRow16 : List String := ["MSCW", "", "Weight %", "Description"] ++ PROVIDERS

/-- A category-header row opening the `COPILOT` category. -/
def catRow : List String := ["COPILOT", "", "", ""]

/-- A criterion row in the code's layout: priority, name, weight, description,
then per-provider scores. -/
def critRow : List String := ["Must", "", "4.5", "Some requirement text", "5", "3"]

/-- The header row in the 3-column-prefix layout the claims describe
(`["MSCW", "Weight %", "Description", <12 entity columns>]`). -/
def claimedHeader : List String := ["MSCW", "Weight %", "Description"] ++ PROVIDERS

/-- The criterion row in the 3-column-prefix layout the claims describe. -/
def claimedCritRow : List String := ["Must", "4.5", "Some requirement text", "5", "3"]

/-- The final-score row in the 3-column-prefix layout claim C8 describes. -/
def claimedFinalRow : List String := ["", "100%", "Загальна оцінка", "84.1%"]

/-- A final-score row in the code's layout: weight `"100%"` at index 2, the
marker text at index 3, provider percentages from index 4. -/
def finalRow : List String := ["", "", "100%", "Загальна оцінка", "84.1%"]

/-! ## C1: fatal header detection -/

/-- C1 (counterexample): the claim says `parse_csv` fails exactly when no row
carries the sentinel text in the first two columns.  The row
`["MSCW", "Weight %", "x", "y"]` carries the sentinels in its first two
columns, yet `parse_csv` still raises, because the code actually checks the
first and the THIRD column (`row[0] == "MSCW" and row[2] == "Weight %"`).  So
the claimed equivalence is false at this input. -/
theorem header_sig_first_two_columns_cex :
    (∃ r ∈ [["MSCW", "Weight %", "x", "y"]], specHeaderSig r = true) ∧
    parse_csv [["MSCW", "Weight %", "x", "y"]] = Except.error "Could not find header row" := by
  exact ⟨⟨["MSCW", "Weight %", "x", "y"], by simp, by decide⟩, by rfl⟩

/-- C1 (amended): `parse_csv` raises if and only if no row has more than 3
cells with `"MSCW"` in its first column and `"Weight %"` in its third column;
when it raises, it returns the bare error and produces no categories, final
scores or cost values (the error constructor carries nothing else). -/
theorem parse_csv_error_iff_no_header (rows : List (List String)) :
    (∃ e, parse_csv rows = Except.error e) ↔ ∀ r ∈ rows, isHeaderRow r = false := by
  unfold parse_csv
  cases h : findHeaderIdx rows with
  | none =>
    simp only [h]
    exact ⟨fun _ => (findHeaderIdx_eq_none rows).mp h, fun _ => ⟨_, rfl⟩⟩
  | some i =>
    simp only [h]
    constructor
    · intro ⟨e, he⟩
      exact absurd he (by simp)
    · intro hall
      exact absurd ((findHeaderIdx_eq_none rows).mpr hall) (by simp [h])

/-- Witness for C1 (amended): at the concrete input `[["x"]]` no row matches
the header test, and `parse_csv` indeed fails. -/
theorem parse_csv_error_iff_no_header_witness :
    (∀ r ∈ [["x"]], isHeaderRow r = false) ∧ ∃ e, parse_csv [["x"]] = Except.error e :=
  ⟨by decide, (parse_csv_error_iff_no_header [["x"]]).mpr (by decide)⟩

/-! ## C2: totality past the header -/

/-- C2: whenever some row of the input matches the header test, `parse_csv`
returns a result and never raises, no matter what the remaining rows hold
(numeric parse failures degrade to 0 inside `mkCriterion` rather than
propagating, and every cell access is guarded by a length check). -/
theorem parse_csv_ok_of_header (rows : List (List String)) (r : List String)
    (hr : r ∈ rows) (hh : isHeaderRow r = true) :
    ∃ out, parse_csv rows = Except.ok out := by
  unfold parse_csv
  cases h : findHeaderIdx rows with
  | none =>
    have := (findHeaderIdx_eq_none rows).mp h r hr
    rw [hh] at this
    exact absurd this (by simp)
  | some i => exact ⟨_, rfl⟩

/-- Witness for C2: the concrete header row is found and extraction succeeds. -/
theorem parse_csv_ok_of_header_witness :
    hdrRow ∈ [hdrRow, claimedCritRow] ∧ isHeaderRow hdrRow = true ∧
      ∃ out, parse_csv [hdrRow, claimedCritRow] = Except.ok out :=
  ⟨by simp, by decide, parse_csv_ok_of_header [hdrRow, claimedCritRow] hdrRow (by simp) (by decide)⟩

/-! ## C3: end-to-end extraction scenario -/

/-- C3 (counterexample): with the row shapes exactly as the claim states them
(header `["MSCW", "Weight %", "Description", <12 entity columns>]`, category
row, criterion row `["Must", "4.5", "Some requirement text", "5", "3"]`),
`parse_csv` does not produce one category with one criterion of weight 4.5: it
aborts without producing anything, because that header row has
`"Description"`, not `"Weight %"`, in the third column which the code tests. -/
theorem claimed_layout_end_to_end_cex :
    parse_csv [claimedHeader, catRow, claimedCritRow] =
      Except.error "Could not find header row" := by
  rfl

/-- C3 (amended): in the layout the code implements — header
`["MSCW", "", "Weight %", "Description", <12 entity columns>]`, a category row
whose first cell is a known category label, and a criterion row
`["Must", "", "4.5", "Some requirement text", "5", "3"]` with weight in the
third column and entity scores from the fifth column — `parse_csv` produces
exactly one category holding exactly one criterion with weight 4.5, first
entity score 5 and second entity score 3. -/
theorem end_to_end_extraction :
    parse_csv [hdrRow16, catRow, critRow] =
      Except.ok
        ([("copilot",
           { name := "Copilot", weight_percent := 15,
             criteria :=
               [{ priority := "Must", weight := 4.5,
                  name := "Some requirement text",
                  description := "Some requirement text",
                  scores := [("Google Cloud CCAI", 5), ("Ender Turing", 3)] }],
             subtotals := [] })],
         [], []) := by
  have hraw :
      parse_csv [hdrRow16, catRow, critRow] =
        Except.ok
          ([("copilot",
             { name := "Copilot", weight_percent := 15,
               criteria :=
                 [{ priority := "Must",
                    weight := (1 : ℚ) * (((4 : ℕ) : ℚ) + ((5 : ℕ) : ℚ) / (10 : ℚ) ^ (1 : ℕ)),
                    name := "Some requirement text",
                    description := "Some requirement text",
                    scores := [("Google Cloud CCAI", (1 : ℚ) * ((5 : ℕ) : ℚ)),
                               ("Ender Turing", (1 : ℚ) * ((3 : ℕ) : ℚ))] }],
               subtotals := [] })],
           [], []) := rfl
  rw [hraw]
  norm_num

/-! ## C8: final-score row scenario -/

/-- C8 (counterexample): the final-score row shaped exactly as the claim says
(`["", "100%", "Загальна оцінка", "84.1%"]`) does NOT populate the final-score
map: the code reads the weight from the third column (here `"Загальна
оцінка"`, not `"100%"`), so the row matches no rule and is dropped, leaving
every output structure empty. -/
theorem final_score_claimed_shape_cex :
    parse_csv [hdrRow, claimedFinalRow] = Except.ok ([], [], []) := by
  rfl

/-- C8 (amended): a final-score row in the code's layout
(`["", "", "100%", "Загальна оцінка", "84.1%"]`, weight `"100%"` in the third
column and the marker text in the fourth) populates the final-score map with
the first entity mapped to `"84.1%"`, and is not appended as a criterion to
the open category. -/
theorem final_score_row_extraction :
    parse_csv [hdrRow, catRow, finalRow] =
      Except.ok
        ([("copilot", { name := "Copilot", weight_percent := 15, criteria := [], subtotals := [] })],
         [("Google Cloud CCAI", "84.1%")], []) := by
  rfl

/-! ## C10: short rows are skipped before classification -/

/-- C10: any row with fewer than 4 cells leaves the whole state untouched —
it opens no category, creates no criterion and updates no map, even if its
first cell is a category label, a priority literal, or a cost-range value. -/
theorem short_row_skipped (st : ParseState) (row : List String) (h : row.length < 4) :
    processRow st row = st := by
  unfold processRow classifyRow
  rw [if_pos h]

/-- Witness for C10: the 1-cell row `["COPILOT"]` (a known category label in
the first cell) is skipped outright. -/
theorem short_row_skipped_witness :
    (["COPILOT"] : List String).length < 4 ∧ processRow initState ["COPILOT"] = initState :=
  ⟨by decide, short_row_skipped initState ["COPILOT"] (by decide)⟩

/-! ## C4: mutually exclusive first-match classification -/

/-- C4: for every row long enough to be classified, `classifyRow` implements
first-match precedence over the five checks in source order — each kind is
reached exactly when its condition holds and every earlier condition fails —
and a subtotal-shaped row (nonempty percent-bearing weight cell, empty
priority cell) can never satisfy the criterion condition. -/
theorem classification_first_match (row : List String) (h : ¬ row.length < 4) :
    (classifyRow row = RowClass.category ↔ catCond row = true) ∧
    (classifyRow row = RowClass.finalScore ↔
      (catCond row = false ∧ finalCond row = true)) ∧
    (classifyRow row = RowClass.tco ↔
      (catCond row = false ∧ finalCond row = false ∧ tcoCond row = true)) ∧
    (classifyRow row = RowClass.subtotal ↔
      (catCond row = false ∧ finalCond row = false ∧ tcoCond row = false ∧
        subCond row = true)) ∧
    (classifyRow row = RowClass.criterion ↔
      (catCond row = false ∧ finalCond row = false ∧ tcoCond row = false ∧
        subCond row = false ∧ critCond row = true)) ∧
    (subCond row = true → critCond row = false) := by
  have hsub : subCond row = true → critCond row = false := by
    intro hs
    unfold subCond at hs
    simp only [Bool.and_eq_true, beq_iff_eq] at hs
    obtain ⟨-, h0⟩ := hs
    unfold critCond
    rw [h0]
    rfl
  refine ⟨?_, ?_, ?_, ?_, ?_, hsub⟩ <;>
    (unfold classifyRow
     rw [if_neg h]
     cases hcat : catCond row <;> cases hfin : finalCond row <;> cases htco : tcoCond row <;>
       cases hsb : subCond row <;> cases hcrit : critCond row <;> simp_all)

/-- Witness for C4: the subtotal-shaped row `["", "x", "20%", "y", "80%"]` has
at least 4 cells and instantiates every equivalence of the classification
theorem. -/
theorem classification_first_match_witness :
    ¬ (["", "x", "20%", "y", "80%"] : List String).length < 4 ∧
    ((classifyRow ["", "x", "20%", "y", "80%"] = RowClass.category ↔
       catCond ["", "x", "20%", "y", "80%"] = true) ∧
     (classifyRow ["", "x", "20%", "y", "80%"] = RowClass.finalScore ↔
       (catCond ["", "x", "20%", "y", "80%"] = false ∧
         finalCond ["", "x", "20%", "y", "80%"] = true)) ∧
     (classifyRow ["", "x", "20%", "y", "80%"] = RowClass.tco ↔
       (catCond ["", "x", "20%", "y", "80%"] = false ∧
         finalCond ["", "x", "20%", "y", "80%"] = false ∧
         tcoCond ["", "x", "20%", "y", "80%"] = true)) ∧
     (classifyRow ["", "x", "20%", "y", "80%"] = RowClass.subtotal ↔
       (catCond ["", "x", "20%", "y", "80%"] = false ∧
         finalCond ["", "x", "20%", "y", "80%"] = false ∧
         tcoCond ["", "x", "20%", "y", "80%"] = false ∧
         subCond ["", "x", "20%", "y", "80%"] = true)) ∧
     (classifyRow ["", "x", "20%", "y", "80%"] = RowClass.criterion ↔
       (catCond ["", "x", "20%", "y", "80%"] = false ∧
         finalCond ["", "x", "20%", "y", "80%"] = false ∧
         tcoCond ["", "x", "20%", "y", "80%"] = false ∧
         subCond ["", "x", "20%", "y", "80%"] = false ∧
         critCond ["", "x", "20%", "y", "80%"] = true)) ∧
     (subCond ["", "x", "20%", "y", "80%"] = true →
       critCond ["", "x", "20%", "y", "80%"] = false)) :=
  ⟨by decide, classification_first_match ["", "x", "20%", "y", "80%"] (by decide)⟩

/-! ## C5: criterion ownership by the most recently opened category -/

/-- The current category after one row is the one the row opens, when it opens
one, and otherwise whatever it was before. -/
theorem processRow_current (st : ParseState) (row : List String) :
    (processRow st row).current =
      match openedCat row with
      | some k => some k
      | none => st.current := by
  cases hcl : classifyRow row with
  | category =>
    simp only [processRow, openedCat, hcl]
    cases hlk : CATEGORY_MAP.lookup (strip (row.getD 0 "")) with
    | none => simp [hlk]
    | some v =>
      obtain ⟨cid, cn, cw⟩ := v
      simp [hlk]
  | skip => simp [processRow, openedCat, hcl]
  | finalScore => simp [processRow, openedCat, hcl]
  | tco => simp [processRow, openedCat, hcl]
  | subtotal =>
    simp only [processRow, openedCat, hcl]
    cases hcur : st.current <;> simp [hcur]
  | criterion =>
    simp only [processRow, openedCat, hcl]
    cases hcur : st.current <;> simp [hcur]
  | other => simp [processRow, openedCat, hcl]

/-- Folding the per-row loop tracks the most recently opened category. -/
theorem foldl_current (rows : List (List String)) :
    ∀ st : ParseState, (rows.foldl processRow st).current = lastOpenedFrom st.current rows := by
  induction rows with
  | nil => intro st; rfl
  | cons r rs ih =>
    intro st
    calc ((r :: rs).foldl processRow st).current
        = (rs.foldl processRow (processRow st r)).current := rfl
      _ = lastOpenedFrom (processRow st r).current rs := ih _
      _ = lastOpenedFrom
            (match openedCat r with
             | some k => some k
             | none => st.current) rs := by rw [processRow_current]
      _ = lastOpenedFrom st.current (r :: rs) := rfl

/-- C5: (a) after processing any row sequence the current category is the most
recently opened one; (b) a criterion row read while no category is open is
silently dropped, changing nothing; (c) a criterion row read while category
`k` is open appends its criterion to exactly the entry of `k`, touching no
other category. -/
theorem criterion_category_ownership :
    (∀ rows, (processRows rows).current = lastOpened rows) ∧
    (∀ (st : ParseState) (row : List String),
      classifyRow row = RowClass.criterion → st.current = none → processRow st row = st) ∧
    (∀ (st : ParseState) (row : List String) (k : String),
      classifyRow row = RowClass.criterion → st.current = some k →
      processRow st row =
        { st with
          categories :=
            updateVal k (fun cat => { cat with criteria := cat.criteria ++ [mkCriterion row] })
              st.categories }) := by
  refine ⟨?_, ?_, ?_⟩
  · intro rows
    have h := foldl_current rows initState
    simpa [processRows, lastOpened, initState] using h
  · intro st row hcl hcur
    simp only [processRow, hcl, hcur]
  · intro st row k hcl hcur
    simp only [processRow, hcl, hcur]

/-- Witness for C5: instantiates the three parts at concrete inputs — a
two-row sequence, a criterion row with no open category, and the same
criterion row with the `copilot` category open. -/
theorem criterion_category_ownership_witness :
    (processRows [catRow, critRow]).current = lastOpened [catRow, critRow] ∧
    (classifyRow critRow = RowClass.criterion ∧ initState.current = none ∧
      processRow initState critRow = initState) ∧
    (classifyRow critRow = RowClass.criterion ∧
      (ParseState.mk [("copilot", ⟨"Copilot", 15, [], []⟩)] [] [] (some "copilot")).current =
        some "copilot" ∧
      processRow (ParseState.mk [("copilot", ⟨"Copilot", 15, [], []⟩)] [] [] (some "copilot"))
          critRow =
        { ParseState.mk [("copilot", ⟨"Copilot", 15, [], []⟩)] [] [] (some "copilot") with
          categories :=
            updateVal "copilot"
              (fun cat => { cat with criteria := cat.criteria ++ [mkCriterion critRow] })
              [("copilot", ⟨"Copilot", 15, [], []⟩)] }) :=
  ⟨criterion_category_ownership.1 [catRow, critRow],
   ⟨by decide, rfl, criterion_category_ownership.2.1 initState critRow (by decide) rfl⟩,
   ⟨by decide, rfl,
    criterion_category_ownership.2.2 _ critRow "copilot" (by decide) rfl⟩⟩

/-! ## C6: the priority of every extracted criterion is closed -/

theorem mem_setd (k : String) (v : α) (m : List (String × α)) (q : String × α)
    (h : q ∈ setd k v m) : q = (k, v) ∨ q ∈ m := by
  induction m with
  | nil => simp [setd] at h; exact Or.inl h
  | cons e rest ih =>
    obtain ⟨k', v'⟩ := e
    by_cases hk : k' = k
    · simp only [setd, beq_iff_eq, if_pos hk] at h
      rcases List.mem_cons.mp h with h1 | h2
      · exact Or.inl h1
      · exact Or.inr (List.mem_cons_of_mem _ h2)
    · simp only [setd, beq_iff_eq, if_neg hk] at h
      rcases List.mem_cons.mp h with h1 | h2
      · exact Or.inr (h1 ▸ List.mem_cons_self _ _)
      · rcases ih h2 with h3 | h4
        · exact Or.inl h3
        · exact Or.inr (List.mem_cons_of_mem _ h4)

theorem mem_updateVal (k : String) (f : α → α) (m : List (String × α)) (q : String × α)
    (h : q ∈ updateVal k f m) : q ∈ m ∨ ∃ v, (k, v) ∈ m ∧ q = (k, f v) := by
  induction m with
  | nil => simp [updateVal] at h
  | cons e rest ih =>
    obtain ⟨k', v'⟩ := e
    by_cases hk : k' = k
    · subst hk
      simp only [updateVal, beq_self_eq_true, if_pos rfl] at h
      rcases List.mem_cons.mp h with h1 | h2
      · exact Or.inr ⟨v', List.mem_cons_self _ _, h1⟩
      · exact Or.inl (List.mem_cons_of_mem _ h2)
    · simp only [updateVal, beq_iff_eq, if_neg hk] at h
      rcases List.mem_cons.mp h with h1 | h2
      · exact Or.inl (h1 ▸ List.mem_cons_self _ _)
      · rcases ih h2 with h3 | ⟨v, hv, hq⟩
        · exact Or.inl (List.mem_cons_of_mem _ h3)
        · exact Or.inr ⟨v, List.mem_cons_of_mem _ hv, hq⟩

/-- A row classified as a criterion row satisfies the criterion condition. -/
theorem critCond_of_classify (row : List String)
    (h : classifyRow row = RowClass.criterion) : critCond row = true := by
  unfold classifyRow at h
  repeat' split at h
  all_goals simp_all

/-- Processing one row preserves the closed-priority invariant on the
accumulated categories. -/
theorem prioOK_processRow (st : ParseState) (row : List String)
    (hok : ∀ kc ∈ st.categories, ∀ c ∈ kc.2.criteria,
      c.priority = "Must" ∨ c.priority = "Should" ∨ c.priority = "Could") :
    ∀ kc ∈ (processRow st row).categories, ∀ c ∈ kc.2.criteria,
      c.priority = "Must" ∨ c.priority = "Should" ∨ c.priority = "Could" := by
  cases hcl : classifyRow row with
  | skip => simpa [processRow, hcl] using hok
  | finalScore => simpa [processRow, hcl] using hok
  | tco => simpa [processRow, hcl] using hok
  | other => simpa [processRow, hcl] using hok
  | category =>
    simp only [processRow, hcl]
    cases hlk : CATEGORY_MAP.lookup (strip (row.getD 0 "")) with
    | none => exact hok
    | some v =>
      obtain ⟨cid, cn, cw⟩ := v
      intro kc hkc c hc
      rcases mem_setd _ _ _ _ hkc with h1 | h2
      · subst h1
        simp at hc
      · exact hok kc h2 c hc
  | subtotal =>
    simp only [processRow, hcl]
    cases hcur : st.current with
    | none => exact hok
    | some k =>
      intro kc hkc c hc
      rcases mem_updateVal _ _ _ _ hkc with h1 | ⟨v, hv, hq⟩
      · exact hok kc h1 c hc
      · subst hq
        exact hok (k, v) hv c (by simpa using hc)
  | criterion =>
    simp only [processRow, hcl]
    cases hcur : st.current with
    | none => exact hok
    | some k =>
      intro kc hkc c hc
      rcases mem_updateVal _ _ _ _ hkc with h1 | ⟨v, hv, hq⟩
      · exact hok kc h1 c hc
      · subst hq
        have hc' : c ∈ v.criteria ++ [mkCriterion row] := by simpa using hc
        rcases List.mem_append.mp hc' with h1 | h2
        · exact hok (k, v) hv c h1
        · have hcrow : c = mkCriterion row := by simpa using h2
          subst hcrow
          have hcrit := critCond_of_classify row hcl
          unfold critCond at hcrit
          simp only [Bool.or_eq_true, beq_iff_eq] at hcrit
          have hpr : (mkCriterion row).priority = strip (row.getD 0 "") := rfl
          rw [hpr]
          tauto

/-- The closed-priority invariant is preserved by the whole pass. -/
theorem prioOK_foldl (rows : List (List String)) :
    ∀ st : ParseState,
      (∀ kc ∈ st.categories, ∀ c ∈ kc.2.criteria,
        c.priority = "Must" ∨ c.priority = "Should" ∨ c.priority = "Could") →
      ∀ kc ∈ (rows.foldl processRow st).categories, ∀ c ∈ kc.2.criteria,
        c.priority = "Must" ∨ c.priority = "Should" ∨ c.priority = "Could" := by
  induction rows with
  | nil => intro st h; exact h
  | cons r rs ih => intro st h; exact ih _ (prioOK_processRow _ _ h)

/-- C6: whatever the input, every criterion in every category produced by
`parse_csv` carries one of the three closed priority values; a row with any
other text in the priority cell never becomes a criterion. -/
theorem criteria_priority_closed (rows : List (List String))
    (cats : List (String × Category)) (fs tco : List (String × String))
    (h : parse_csv rows = Except.ok (cats, fs, tco)) :
    ∀ kc ∈ cats, ∀ c ∈ kc.2.criteria,
      c.priority = "Must" ∨ c.priority = "Should" ∨ c.priority = "Could" := by
  unfold parse_csv at h
  cases hf : findHeaderIdx rows with
  | none =>
    rw [hf] at h
    exact absurd h (by simp)
  | some i =>
    rw [hf] at h
    simp only [Except.ok.injEq, Prod.mk.injEq] at h
    obtain ⟨h1, -, -⟩ := h
    subst h1
    exact prioOK_foldl _ initState (fun kc hkc => by simp [initState] at hkc)

/-- The single category produced by the concrete run backing the C6 witness. -/
def catW : Category :=
  { name := "Copilot", weight_percent := 15,
    criteria := [mkCriterion ["Must", "N", "1", "D"]], subtotals := [] }

/-- Witness for C6: on a concrete three-row input the extraction succeeds and
the sole produced criterion carries one of the three closed priorities. -/
theorem criteria_priority_closed_witness :
    (mkCriterion ["Must", "N", "1", "D"]).priority = "Must" ∨
    (mkCriterion ["Must", "N", "1", "D"]).priority = "Should" ∨
    (mkCriterion ["Must", "N", "1", "D"]).priority = "Could" :=
  criteria_priority_closed [hdrRow, catRow, ["Must", "N", "1", "D"]]
    [("copilot", catW)] [] [] rfl ("copilot", catW) (by simp)
    (mkCriterion ["Must", "N", "1", "D"]) (by simp [catW])

/-! ## C7: cost-range capture -/

/-- C7: for a row classified as a cost-range row, the cost map's entry for the
`j`-th provider is overwritten exactly when that provider's cell is nonempty
and matches the numeric-range pattern (in which case the stored value is that
cell), and is left untouched otherwise — in particular a non-matching cell is
absent rather than zero-filled; and every value the row stores matches the
pattern exactly. -/
theorem tco_values_lookup (st : ParseState) (row : List String) (j : Nat) (p : String)
    (hcl : classifyRow row = RowClass.tco) (hj : PROVIDERS.get? j = some p) :
    (List.lookup p (processRow st row).tco_values =
      match tcoUpd row j with
      | some v => some v
      | none => List.lookup p st.tco_values) ∧
    (∀ v, tcoUpd row j = some v → tcoMatch v = true) := by
  constructor
  · simp only [processRow, hcl]
    rw [lookup_pfold _ _ _ _ hj]
    cases tcoUpd row j <;> rfl
  · intro v hv
    simp only [tcoUpd] at hv
    split at hv
    · split at hv
      · rename_i hcond
        obtain rfl := Option.some.inj hv
        simp only [Bool.and_eq_true] at hcond
        exact hcond.2
      · exact absurd hv (by simp)
    · exact absurd hv (by simp)

/-- Witness for C7: a concrete cost-range row stores the matching cell of the
first provider. -/
theorem tco_values_lookup_witness :
    classifyRow ["a", "b", "c", "d", "150 - 200 000"] = RowClass.tco ∧
    PROVIDERS.get? 0 = some "Google Cloud CCAI" ∧
    ((List.lookup "Google Cloud CCAI"
        (processRow initState ["a", "b", "c", "d", "150 - 200 000"]).tco_values =
      match tcoUpd ["a", "b", "c", "d", "150 - 200 000"] 0 with
      | some v => some v
      | none => List.lookup "Google Cloud CCAI" initState.tco_values) ∧
     (∀ v, tcoUpd ["a", "b", "c", "d", "150 - 200 000"] 0 = some v → tcoMatch v = true)) :=
  ⟨by decide, by decide,
   tco_values_lookup initState ["a", "b", "c", "d", "150 - 200 000"] 0 "Google Cloud CCAI"
     (by decide) (by decide)⟩

/-! ## C9: per-entity score capture in criterion rows -/

/-- C9 (counterexample): the claim says a missing cell (row too short)
defaults the entity's score to 0, but on the criterion row
`["Must", "N", "1", "D"]` (no score cells at all) the produced criterion's
score dict is empty: the first provider has NO entry, rather than an entry 0. -/
theorem scores_missing_cell_cex :
    parse_csv [hdrRow, catRow, ["Must", "N", "1", "D"]] =
      Except.ok
        ([("copilot",
           { name := "Copilot", weight_percent := 15,
             criteria :=
               [{ priority := "Must", weight := 1, name := "N", description := "D",
                  scores := [] }],
             subtotals := [] })],
         [], []) ∧
    List.lookup "Google Cloud CCAI" (mkCriterion ["Must", "N", "1", "D"]).scores = none := by
  constructor
  · have hraw :
        parse_csv [hdrRow, catRow, ["Must", "N", "1", "D"]] =
          Except.ok
            ([("copilot",
               { name := "Copilot", weight_percent := 15,
                 criteria :=
                   [{ priority := "Must", weight := (1 : ℚ) * ((1 : ℕ) : ℚ), name := "N",
                      description := "D", scores := [] }],
                 subtotals := [] })],
             [], []) := rfl
    rw [hraw]
    norm_num
  · rfl

/-- C9 (amended): in the criterion built from a criterion row, the `j`-th
provider's score entry is the parsed cell value (with a locale comma accepted
as decimal point) when the cell parses, the explicit default 0 when the cell
is present but unparsable, and ABSENT (no entry at all, rather than 0) when
the row is too short to have that cell. -/
theorem criterion_scores_lookup (row : List String) (j : Nat) (p : String)
    (hj : PROVIDERS.get? j = some p) :
    List.lookup p (mkCriterion row).scores =
      if j + 4 < row.length then
        some ((parseDecimal (replaceCommaDot (strip (row.getD (j + 4) "")))).getD 0)
      else none := by
  have h : (mkCriterion row).scores = pfold (scoreUpd row) [] := rfl
  rw [h, lookup_pfold _ _ _ _ hj]
  unfold scoreUpd
  by_cases hlen : j + 4 < row.length
  · rw [if_pos hlen]
    rfl
  · rw [if_neg hlen]
    rfl

/-- Witness for C9 (amended): on a concrete criterion row with a comma-decimal
cell for the first provider, the characterisation evaluates as stated. -/
theorem criterion_scores_lookup_witness :
    PROVIDERS.get? 0 = some "Google Cloud CCAI" ∧
    List.lookup "Google Cloud CCAI" (mkCriterion ["Must", "N", "1", "D", "2,5"]).scores =
      (if 0 + 4 < (["Must", "N", "1", "D", "2,5"] : List String).length then
        some ((parseDecimal (replaceCommaDot (strip
          ((["Must", "N", "1", "D", "2,5"] : List String).getD (0 + 4) "")))).getD 0)
      else none) :=
  ⟨by decide,
   criterion_scores_lookup ["Must", "N", "1", "D", "2,5"] 0 "Google Cloud CCAI" (by decide)⟩

end UpdateIndex
